import Mathlib

/-!
Verification of the gitlab-issuereporter command-line tool (main.go).

Go strings are embedded as `List Char` (`GoStr`); the helpers below model
the `strings`, `net/url` and `time` standard-library operations the program
uses, and `runMain` models the straight-line control flow of `main`,
with the filesystem, the GitLab service and the clock supplied as an
explicit environment (`Env`).  `log.Fatal*` is modelled as a `fatal`
outcome: in Go it calls `os.Exit`, which does not run deferred functions.
-/

set_option autoImplicit false

/-- Go strings, embedded as lists of characters. -/
abbrev GoStr := List Char

/-- Literal Go strings written as Lean string literals. -/
def gs (s : String) : GoStr := s.toList

/-- Whether `pat` is a leading segment of `s` (models `strings.HasPrefix`). -/
def listStartsWith : GoStr → GoStr → Bool
  | [], _ => true
  | _ :: _, [] => false
  | p :: ps, c :: cs => p = c && listStartsWith ps cs

/-- Models `strings.Split(s, sep)` for a one-character separator: the list of
(possibly empty) chunks of `s` between occurrences of `sep`. -/
def splitOnChar (sep : Char) : GoStr → List GoStr
  | [] => [[]]
  | c :: rest =>
    if c = sep then [] :: splitOnChar sep rest
    else
      match splitOnChar sep rest with
      | [] => [[c]]
      | g :: gls => (c :: g) :: gls

/-- Models `strings.Join(elems, sep)`. -/
def goJoin (sep : GoStr) : List GoStr → GoStr
  | [] => []
  | [x] => x
  | x :: xs => x ++ sep ++ goJoin sep xs

/-- Models Go's `unicode.IsSpace` on the ASCII whitespace the token file can
contain (the non-ASCII Unicode space code points are not modelled). -/
def isGoSpace (c : Char) : Bool :=
  c = ' ' || c = '\t' || c = '\n' || c = '\x0b' || c = '\x0c' || c = '\r'

/-- Models `strings.TrimSpace`: drops leading and trailing whitespace. -/
def goTrimSpace (s : GoStr) : GoStr :=
  ((s.dropWhile isGoSpace).reverse.dropWhile isGoSpace).reverse

/-- Models `strings.TrimPrefix(s, pre)`: removes one leading copy of `pre`
if present, otherwise returns `s` unchanged. -/
def goTrimPfx (s pre : GoStr) : GoStr :=
  if listStartsWith pre s then s.drop pre.length else s

/-- Models `strings.Replace(s, pat, repl, 1)`: replaces the first occurrence
of `pat` in `s` by `repl` (for the non-empty `pat` used by the program). -/
def replaceFirst (pat repl : GoStr) : GoStr → GoStr
  | [] => if listStartsWith pat [] then repl else []
  | c :: rest =>
    if listStartsWith pat (c :: rest) then repl ++ (c :: rest).drop pat.length
    else c :: replaceFirst pat repl rest

/-- Everything of `s` strictly before the first occurrence of `c`. -/
def takeUntilChar (c : Char) (s : GoStr) : GoStr :=
  s.takeWhile (fun x => x ≠ c)

/-- The remainder of the string after the first occurrence of `pat`, if any. -/
def afterSub (pat : GoStr) : GoStr → Option GoStr
  | [] => if listStartsWith pat [] then some ([] : GoStr) else none
  | c :: rest =>
    if listStartsWith pat (c :: rest) then some ((c :: rest).drop pat.length)
    else afterSub pat rest

/-- Models the `Path` field of Go's `url.Parse` for the URL shapes this
program handles: the fragment (after `#`) and the query (after `?`) are cut
off; if the remainder contains `://` the path starts at the first `/` after
the host, otherwise the whole remainder is the path (a relative reference).
Parse *errors* (control characters, malformed percent escapes) are not
modelled: parsing is total here. -/
def urlPath (s : GoStr) : GoStr :=
  let noQuery := takeUntilChar '?' (takeUntilChar '#' s)
  match afterSub (gs "://") noQuery with
  | some rest => rest.dropWhile (fun c => c ≠ '/')
  | none => noQuery

/-- Embeds `extractProjectPath` (main.go lines 17-32): split the URL path on
`/`; with fewer than 5 components, fail with
`invalid GitLab issues link: <link>`; otherwise join components 1 through 4
with `/`.  The `url.Parse` error branch is not modelled (see `urlPath`). -/
def extractProjectPath (issuesLink : GoStr) : Except GoStr GoStr :=
  if (splitOnChar '/' (urlPath issuesLink)).length < 5 then
    Except.error (gs "invalid GitLab issues link: " ++ issuesLink)
  else
    Except.ok (goJoin (gs "/") (((splitOnChar '/' (urlPath issuesLink)).drop 1).take 4))

/-- The token value obtained from the token file's contents: the
`strings.TrimSpace` inside `readGitLabTokenFromFile` (main.go line 41)
followed by the `strings.TrimPrefix(gitlabToken, "token:")` in `main`
(main.go line 72). -/
def tokenFromFileContents (contents : GoStr) : GoStr :=
  goTrimPfx (goTrimSpace contents) (gs "token:")

/-- Embeds `resolveHome` (main.go lines 180-187): when the home directory
cannot be resolved the error is logged and the path is returned unchanged;
otherwise the first `~` is replaced by the home directory
(`strings.Replace(*path, "~", expandedPath, 1)`). -/
def resolveHome (homeDir : Option GoStr) (path : GoStr) : GoStr :=
  match homeDir with
  | none => path
  | some expandedPath => replaceFirst (gs "~") expandedPath path

/-- Embeds the label-set construction of `main` (main.go lines 94-108):
`lab` and `notLabels` both start empty; the release label is appended when
non-empty; `READY-FOR-TEST` goes into `lab` when the flag is set and into
`notLabels` otherwise; the blocker label is appended when non-empty. -/
def buildLabels (releaseLabel : GoStr) (readyForTest : Bool) (blockerLabel : GoStr) :
    List GoStr × List GoStr :=
  let lab : List GoStr := []
  let notLabels : List GoStr := []
  let lab := if releaseLabel ≠ [] then lab ++ [releaseLabel] else lab
  let p := if readyForTest then (lab ++ [gs "READY-FOR-TEST"], notLabels)
           else (lab, notLabels ++ [gs "READY-FOR-TEST"])
  let lab := p.1
  let notLabels := p.2
  let lab := if blockerLabel ≠ [] then lab ++ [blockerLabel] else lab
  (lab, notLabels)

/-- The hardcoded GitLab issues link (main.go line 75). -/
def gitlabIssuesLink : GoStr :=
  gs "https://gitlab.com/f5/volterra/support/technical/-/issues/?sort=created_date&state=opened"

/-- The hardcoded token file path before home expansion (main.go line 61). -/
def tokenFilePathRaw : GoStr := gs "~/.gitlab"

/-- The project path extracted from the hardcoded link. -/
def projPath : GoStr := gs "f5/volterra/support/technical"

/-- Decidable equality for `Except`, needed to evaluate run results. -/
instance {ε α : Type} [DecidableEq ε] [DecidableEq α] : DecidableEq (Except ε α) := fun x y =>
  match x, y with
  | Except.error a, Except.error b =>
    if h : a = b then isTrue (by rw [h]) else isFalse (fun hc => h (Except.error.inj hc))
  | Except.ok a, Except.ok b =>
    if h : a = b then isTrue (by rw [h]) else isFalse (fun hc => h (Except.ok.inj hc))
  | Except.error _, Except.ok _ => isFalse (fun hc => Except.noConfusion hc)
  | Except.ok _, Except.error _ => isFalse (fun hc => Except.noConfusion hc)

/-- A wall-clock instant, the part of Go's `time.Time` the program formats. -/
structure GoTime where
  year : Nat
  month : Nat
  day : Nat
  hour : Nat
  minute : Nat
  second : Nat
deriving DecidableEq

/-- Decimal digits of `n` left-padded with zeros to width `w`, as Go's
zero-padded layout components (`2006`, `01`, ..., `05`) print them. -/
def natPad (w n : Nat) : GoStr :=
  List.replicate (w - (Nat.toDigits 10 n).length) '0' ++ Nat.toDigits 10 n

/-- Models `t.Format("2006-01-02 15:04:05")` (main.go line 168). -/
def goFormatDateTime (t : GoTime) : GoStr :=
  natPad 4 t.year ++ gs "-" ++ natPad 2 t.month ++ gs "-" ++ natPad 2 t.day ++
  gs " " ++ natPad 2 t.hour ++ gs ":" ++ natPad 2 t.minute ++ gs ":" ++ natPad 2 t.second

/-- Models `time.Now().Format("2006-01-02_15-04-05")` (main.go line 123). -/
def goFormatFileTime (t : GoTime) : GoStr :=
  natPad 4 t.year ++ gs "-" ++ natPad 2 t.month ++ gs "-" ++ natPad 2 t.day ++
  gs "_" ++ natPad 2 t.hour ++ gs "-" ++ natPad 2 t.minute ++ gs "-" ++ natPad 2 t.second

/-- The CSV file name `issues_output_<timestamp>.csv` (main.go line 124). -/
def csvName (t : GoTime) : GoStr :=
  gs "issues_output_" ++ goFormatFileTime t ++ gs ".csv"

/-- Decimal rendering of a Go `int`, as `fmt.Sprintf("%d", i)` prints it. -/
def intToGoStr (i : Int) : GoStr :=
  if i < 0 then '-' :: Nat.toDigits 10 i.natAbs else Nat.toDigits 10 i.natAbs

/-- The markdown-style issue link `[#<iid>](<webURL>)` (main.go line 160). -/
def issueLinkStr (iid : Int) (webURL : GoStr) : GoStr :=
  gs "[#" ++ intToGoStr iid ++ gs "](" ++ webURL ++ gs ")"

/-- The fields of a `gitlab.Issue` from `ListProjectIssues` that `main`
reads from the *list* result: the internal id used for the link and the
detail fetch, and the optional assignee (main.go lines 147-154, 160). -/
structure IssueSummary where
  iid : Int
  assignee : Option GoStr
deriving DecidableEq

/-- The fields of the `gitlab.Issue` returned by the per-issue `GetIssue`
call that `main` reads from the *detail* result (main.go lines 160-168).
The detail record also carries an iid and an assignee; the program ignores
both, so they are kept here to state that it does. -/
structure IssueDetail where
  iid : Int
  title : GoStr
  assignee : Option GoStr
  authorUsername : GoStr
  createdAt : GoTime
  webURL : GoStr
deriving DecidableEq

/-- The externally observable effects of one run, in program order. -/
inductive Event where
  | readTokenFile (path : GoStr)
  | newClient (token : GoStr)
  | listCall (projectPath state : GoStr) (perPage : Nat) (labels nots : List GoStr)
  | getIssueCall (projectPath : GoStr) (iid : Int)
  | createFile (name : GoStr)
deriving DecidableEq

/-- How the process ends: a normal exit, or `log.Fatal*` (which calls
`os.Exit` and therefore skips deferred functions). -/
inductive RunOutcome where
  | normal
  | fatal (msg : GoStr)
deriving DecidableEq

/-- The state of the output file at process end.  `flushed` is what reached
the disk; `unflushed` is what was written to the `csv.Writer` but never
flushed (the deferred `writer.Flush()` runs only on a normal return from
`main`); `closed` records whether the deferred `outputFile.Close()` ran.
Rows are kept at field granularity; CSV quoting is not modelled, and the
in-memory buffer is treated as unbounded (faithful for outputs smaller
than the 4096-byte `bufio` buffer, which never auto-flushes here). -/
structure CsvFile where
  name : GoStr
  flushed : List (List GoStr)
  unflushed : List (List GoStr)
  closed : Bool
deriving DecidableEq

/-- The result of one run: the event trace, the outcome, and the output
file (`none` when the run ends before `os.Create`). -/
structure RunResult where
  trace : List Event
  outcome : RunOutcome
  csv : Option CsvFile
deriving DecidableEq

/-- The environment a run interacts with: the parsed flag values, the home
directory (`none` models an `os.UserHomeDir` error), the filesystem
(`none` models a read error), whether `gitlab.NewClient` succeeds, the
response to the one list call (`none` models a remote error), the response
to each detail fetch by iid, whether `os.Create` succeeds, and the clock. -/
structure Env where
  releaseLabel : GoStr
  readyForTest : Bool
  blockerLabel : GoStr
  homeDir : Option GoStr
  readFile : GoStr → Option GoStr
  clientOk : Bool
  listResult : Option (List IssueSummary)
  getIssue : Int → Option IssueDetail
  createOk : Bool
  now : GoTime

/-- The header row written to the CSV (main.go line 139). -/
def headerRow : List GoStr :=
  [gs "Issue", gs "Summary", gs "Assignee", gs "Author", gs "Date of Creation"]

/-- Embeds the per-issue loop of `main` (main.go lines 147-174): for each
issue, compute the assignee from the *list* record (sentinel `Unassigned`
when absent), fetch the detail record, build the row, and buffer it.  On a
`GetIssue` failure `log.Fatalf` exits the process: the deferred flush and
close never run, so the buffered rows stay unflushed.  When the list is
exhausted `main` returns normally and the deferred `writer.Flush()` and
`outputFile.Close()` run. -/
def writeLoop (env : Env) (projectPath fileName : GoStr) (trace : List Event)
    (buffer : List (List GoStr)) : List IssueSummary → RunResult
  | [] => ⟨trace, RunOutcome.normal, some ⟨fileName, buffer, [], true⟩⟩
  | issue :: rest =>
    let assignee := match issue.assignee with
      | none => gs "Unassigned"
      | some n => n
    match env.getIssue issue.iid with
    | none =>
      ⟨trace ++ [Event.getIssueCall projectPath issue.iid],
       RunOutcome.fatal (gs "Failed to get detailed issue"),
       some ⟨fileName, [], buffer, false⟩⟩
    | some d =>
      let row := [issueLinkStr issue.iid d.webURL, d.title, assignee,
                  d.authorUsername, goFormatDateTime d.createdAt]
      writeLoop env projectPath fileName
        (trace ++ [Event.getIssueCall projectPath issue.iid]) (buffer ++ [row]) rest

/-- Embeds `main` (main.go lines 44-177) over an explicit environment.
The steps in source order: the flag validation (line 55), `resolveHome`
(line 62), the token file read and trimming (lines 66-72), the project
path extraction from the hardcoded link (line 79), client construction
(line 87), the label sets (lines 94-108), the single list call with
state `opened` and page size 100 (line 110), the CSV file creation with a
timestamped name (lines 123-126), the header write and the per-issue loop
(lines 139-174).  Each `log.Fatal*` is a `fatal` outcome; writes to the
buffered CSV writer themselves cannot fail in this model (see `CsvFile`). -/
def runMain (env : Env) : RunResult :=
  if env.releaseLabel = [] ∧ env.readyForTest = true then
    ⟨[], RunOutcome.fatal (gs "Release label is required when filtering by READY-FOR-TEST"), none⟩
  else
    let tokenFile := resolveHome env.homeDir tokenFilePathRaw
    match env.readFile tokenFile with
    | none =>
      ⟨[Event.readTokenFile tokenFile],
       RunOutcome.fatal (gs "Failed to read GitLab token from file"), none⟩
    | some contents =>
      let gitlabToken := tokenFromFileContents contents
      match extractProjectPath gitlabIssuesLink with
      | Except.error _ =>
        ⟨[Event.readTokenFile tokenFile],
         RunOutcome.fatal (gs "Failed to extract project path"), none⟩
      | Except.ok projectPath =>
        if env.clientOk = false then
          ⟨[Event.readTokenFile tokenFile],
           RunOutcome.fatal (gs "Failed to create GitLab client"), none⟩
        else
          let lab := (buildLabels env.releaseLabel env.readyForTest env.blockerLabel).1
          let notLabels := (buildLabels env.releaseLabel env.readyForTest env.blockerLabel).2
          let listEv := Event.listCall projectPath (gs "opened") 100 lab notLabels
          match env.listResult with
          | none =>
            ⟨[Event.readTokenFile tokenFile, Event.newClient gitlabToken, listEv],
             RunOutcome.fatal (gs "Failed to list project issues"), none⟩
          | some issues =>
            let fileName := csvName env.now
            if env.createOk = false then
              ⟨[Event.readTokenFile tokenFile, Event.newClient gitlabToken, listEv],
               RunOutcome.fatal (gs "Failed to create CSV file"), none⟩
            else
              writeLoop env projectPath fileName
                [Event.readTokenFile tokenFile, Event.newClient gitlabToken, listEv,
                 Event.createFile fileName]
                [headerRow] issues

/-- The row `main` writes for list record `s`, given the detail record the
environment returns for `s.iid` (main.go lines 148-169): the markdown link
from the list record's iid and the detail record's URL, the detail title,
the assignee from the list record (`Unassigned` when absent), the detail
author username, and the formatted detail creation date. -/
def rowSpec (env : Env) (s : IssueSummary) : List GoStr :=
  match env.getIssue s.iid with
  | none => []
  | some d =>
    [issueLinkStr s.iid d.webURL, d.title,
     (match s.assignee with | none => gs "Unassigned" | some n => n),
     d.authorUsername, goFormatDateTime d.createdAt]

/-- A detail record for iid 7: assigned issue, used in concrete runs. -/
def detailCrash : IssueDetail :=
  ⟨7, gs "Crash", some (gs "Carol"), gs "bob", ⟨2024, 3, 25, 9, 5, 3⟩, gs "https://gitlab.com/x/7"⟩

/-- A detail record for iid 9: unassigned in the list record's view. -/
def detailHang : IssueDetail :=
  ⟨9, gs "Hang", none, gs "dave", ⟨2024, 3, 24, 23, 59, 1⟩, gs "https://gitlab.com/x/9"⟩

/-- A detail record that carries an assignee and a different iid, to
exercise which record each report column is taken from. -/
def detailEve : IssueDetail :=
  ⟨123, gs "Leak", some (gs "Eve"), gs "alice", ⟨2024, 3, 20, 8, 30, 59⟩, gs "https://gitlab.com/x/9"⟩

/-- A fully healthy environment whose list call returns two issues, the
first with an assignee and the second without. -/
def envTwoIssues : Env :=
  { releaseLabel := gs "R", readyForTest := false, blockerLabel := []
    homeDir := some (gs "/home/u"), readFile := fun _ => some (gs "token:abc")
    clientOk := true
    listResult := some [⟨7, some (gs "Alice")⟩, ⟨9, none⟩]
    getIssue := fun i => if i = 7 then some detailCrash else if i = 9 then some detailHang else none
    createOk := true, now := ⟨2024, 3, 26, 10, 0, 0⟩ }

/-- A healthy environment with all three filter flags set whose list call
returns no issues. -/
def envNoIssues : Env :=
  { envTwoIssues with
    releaseLabel := gs "R"
    readyForTest := true
    blockerLabel := gs "B"
    listResult := some [] }

/-- A healthy environment whose single listed issue has no assignee, while
the detail record fetched for it does. -/
def envOneIssue : Env :=
  { envTwoIssues with
    listResult := some [⟨9, none⟩]
    getIssue := fun i => if i = 9 then some detailEve else none }

/-- An environment where every detail fetch fails after the file is open. -/
def envDetailFail : Env :=
  { envTwoIssues with getIssue := fun _ => none }

/-- An environment running with `-ready-for-test` but no release label. -/
def envValidationFail : Env :=
  { envTwoIssues with releaseLabel := [], readyForTest := true }

/-- An environment where home-directory resolution and the subsequent
token-file read both fail. -/
def envHomeFail : Env :=
  { envTwoIssues with homeDir := none, readFile := fun _ => none }

/-- Closed form of the label sets built by `main`: the include list is the
release label (when non-empty), then `READY-FOR-TEST` (when the flag is
set), then the blocker label (when non-empty); the exclude list is
`READY-FOR-TEST` exactly when the flag is not set. -/
theorem buildLabels_spec (r : GoStr) (ft : Bool) (b : GoStr) :
    buildLabels r ft b =
      ((if r = [] then [] else [r]) ++ (if ft = true then [gs "READY-FOR-TEST"] else []) ++
        (if b = [] then [] else [b]),
       if ft = true then [] else [gs "READY-FOR-TEST"]) := by
  unfold buildLabels
  by_cases hr : r = [] <;> cases ft <;> by_cases hb : b = [] <;> simp [hr, hb]

/-- The hardcoded issues link parses to the project path used everywhere. -/
theorem extract_link_eq : extractProjectPath gitlabIssuesLink = Except.ok projPath := by decide

/-- Every event the per-issue loop adds to the trace is a detail fetch. -/
theorem writeLoop_trace_events (env : Env) (pp fn : GoStr) :
    ∀ (issues : List IssueSummary) (t : List Event) (b : List (List GoStr)) (ev : Event),
      ev ∈ (writeLoop env pp fn t b issues).trace →
      ev ∈ t ∨ ∃ i, ev = Event.getIssueCall pp i := by
  intro issues
  induction issues with
  | nil => intro t b ev h; exact Or.inl h
  | cons s rest ih =>
    intro t b ev h
    simp only [writeLoop] at h
    cases hg : env.getIssue s.iid with
    | none =>
      rw [hg] at h
      simp only [RunResult.mk.injEq] at h
      rcases List.mem_append.mp h with h' | h'
      · exact Or.inl h'
      · exact Or.inr ⟨s.iid, List.mem_singleton.mp h'⟩
    | some d =>
      rw [hg] at h
      rcases ih _ _ _ h with h' | h'
      · rcases List.mem_append.mp h' with h'' | h''
        · exact Or.inl h''
        · exact Or.inr ⟨s.iid, List.mem_singleton.mp h''⟩
      · exact Or.inr h'

/-- When every detail fetch succeeds, the loop appends one fetch event and
one `rowSpec` row per issue, in list order, returns normally, and the
deferred flush and close run. -/
theorem writeLoop_success (env : Env) (pp fn : GoStr) :
    ∀ (issues : List IssueSummary) (t : List Event) (b : List (List GoStr)),
      (∀ s ∈ issues, (env.getIssue s.iid).isSome = true) →
      writeLoop env pp fn t b issues =
        ⟨t ++ issues.map (fun s => Event.getIssueCall pp s.iid), RunOutcome.normal,
         some ⟨fn, b ++ issues.map (rowSpec env), [], true⟩⟩ := by
  intro issues
  induction issues with
  | nil => intro t b _; simp [writeLoop]
  | cons s rest ih =>
    intro t b hi
    obtain ⟨d, hd⟩ := Option.isSome_iff_exists.mp (hi s (List.mem_cons_self s rest))
    simp only [writeLoop, hd]
    rw [ih _ _ (fun x hx => hi x (List.mem_cons_of_mem s hx))]
    simp [rowSpec, hd]

/-- If the loop ends with a normal outcome, the file it reports has no
unflushed rows and is closed. -/
theorem writeLoop_flush_normal (env : Env) (pp fn : GoStr) :
    ∀ (issues : List IssueSummary) (t : List Event) (b : List (List GoStr)) (fs : CsvFile),
      (writeLoop env pp fn t b issues).outcome = RunOutcome.normal →
      (writeLoop env pp fn t b issues).csv = some fs →
      fs.unflushed = [] ∧ fs.closed = true := by
  intro issues
  induction issues with
  | nil =>
    intro t b fs _ h2
    simp only [writeLoop, Option.some.injEq] at h2
    rw [← h2]
    exact ⟨rfl, rfl⟩
  | cons s rest ih =>
    intro t b fs h1 h2
    simp only [writeLoop] at h1 h2
    cases hg : env.getIssue s.iid with
    | none =>
      simp only [hg] at h1
      exact RunOutcome.noConfusion h1
    | some d =>
      simp only [hg] at h1 h2
      exact ih _ _ _ h1 h2

/-- A run in which validation passes, the token file reads, the client
constructs, the list call returns `issues`, the file creates, and every
detail fetch succeeds: the full trace, the normal outcome, and the flushed
file contents, in closed form. -/
theorem runMain_success (env : Env) (issues : List IssueSummary) (tok : GoStr)
    (hv : ¬(env.releaseLabel = [] ∧ env.readyForTest = true))
    (hr : env.readFile (resolveHome env.homeDir tokenFilePathRaw) = some tok)
    (hc : env.clientOk = true)
    (hl : env.listResult = some issues)
    (ho : env.createOk = true)
    (hi : ∀ s ∈ issues, (env.getIssue s.iid).isSome = true) :
    runMain env =
      ⟨[Event.readTokenFile (resolveHome env.homeDir tokenFilePathRaw),
        Event.newClient (tokenFromFileContents tok),
        Event.listCall projPath (gs "opened") 100
          (buildLabels env.releaseLabel env.readyForTest env.blockerLabel).1
          (buildLabels env.releaseLabel env.readyForTest env.blockerLabel).2,
        Event.createFile (csvName env.now)] ++
          issues.map (fun s => Event.getIssueCall projPath s.iid),
       RunOutcome.normal,
       some ⟨csvName env.now, headerRow :: issues.map (rowSpec env), [], true⟩⟩ := by
  unfold runMain
  rw [if_neg hv]
  simp only [hr, extract_link_eq, hc, hl, ho]
  rw [writeLoop_success env projPath (csvName env.now) issues _ _ hi]
  simp

/-- C1: whenever a run emits a list call, the include-label set passed to
it is exactly the release label (if non-empty), then `READY-FOR-TEST`
(iff the ready-for-test flag is set), then the blocker label (if
non-empty), in that order, and the exclude-label set is exactly
`READY-FOR-TEST` when the flag is not set and empty when it is. -/
theorem labelSets_passed_to_list (env : Env) (pp st : GoStr) (n : Nat) (lab nl : List GoStr)
    (h : Event.listCall pp st n lab nl ∈ (runMain env).trace) :
    lab = (if env.releaseLabel = [] then [] else [env.releaseLabel]) ++
          (if env.readyForTest = true then [gs "READY-FOR-TEST"] else []) ++
          (if env.blockerLabel = [] then [] else [env.blockerLabel]) ∧
    nl = (if env.readyForTest = true then [] else [gs "READY-FOR-TEST"]) := by
  have step :
      lab = (buildLabels env.releaseLabel env.readyForTest env.blockerLabel).1 ∧
        nl = (buildLabels env.releaseLabel env.readyForTest env.blockerLabel).2 →
      lab = (if env.releaseLabel = [] then [] else [env.releaseLabel]) ++
            (if env.readyForTest = true then [gs "READY-FOR-TEST"] else []) ++
            (if env.blockerLabel = [] then [] else [env.blockerLabel]) ∧
      nl = (if env.readyForTest = true then [] else [gs "READY-FOR-TEST"]) := by
    rintro ⟨h1, h2⟩
    rw [h1, h2, buildLabels_spec]
    exact ⟨rfl, rfl⟩
  by_cases hv : env.releaseLabel = [] ∧ env.readyForTest = true
  · simp only [runMain, if_pos hv] at h
    simp at h
  · simp only [runMain, if_neg hv, extract_link_eq] at h
    cases hread : env.readFile (resolveHome env.homeDir tokenFilePathRaw) with
    | none => simp only [hread] at h; simp at h
    | some contents =>
      simp only [hread] at h
      by_cases hc : env.clientOk = false
      · rw [if_pos hc] at h
        simp at h
      · rw [if_neg hc] at h
        cases hlist : env.listResult with
        | none =>
          simp only [hlist] at h
          simp only [List.mem_cons, List.not_mem_nil, or_false] at h
          rcases h with h' | h' | h'
          · exact Event.noConfusion h'
          · exact Event.noConfusion h'
          · rw [Event.listCall.injEq] at h'
            exact step ⟨h'.2.2.2.1, h'.2.2.2.2⟩
        | some issues =>
          simp only [hlist] at h
          by_cases hcr : env.createOk = false
          · rw [if_pos hcr] at h
            simp only [List.mem_cons, List.not_mem_nil, or_false] at h
            rcases h with h' | h' | h'
            · exact Event.noConfusion h'
            · exact Event.noConfusion h'
            · rw [Event.listCall.injEq] at h'
              exact step ⟨h'.2.2.2.1, h'.2.2.2.2⟩
          · rw [if_neg hcr] at h
            rcases writeLoop_trace_events env projPath (csvName env.now) issues _ _ _ h with h' | h'
            · simp only [List.mem_cons, List.not_mem_nil, or_false] at h'
              rcases h' with h' | h' | h' | h'
              · exact Event.noConfusion h'
              · exact Event.noConfusion h'
              · rw [Event.listCall.injEq] at h'
                exact step ⟨h'.2.2.2.1, h'.2.2.2.2⟩
              · exact Event.noConfusion h'
            · obtain ⟨i, hev⟩ := h'
              exact Event.noConfusion hev

/-- Witness for C1: in a run with release label `R`, the ready-for-test
flag set and blocker label `B`, the list call carries exactly
`[R, READY-FOR-TEST, B]` and an empty exclude set. -/
theorem labelSets_passed_to_list_witness :
    ([gs "R", gs "READY-FOR-TEST", gs "B"] : List GoStr) =
      (if envNoIssues.releaseLabel = [] then [] else [envNoIssues.releaseLabel]) ++
      (if envNoIssues.readyForTest = true then [gs "READY-FOR-TEST"] else []) ++
      (if envNoIssues.blockerLabel = [] then [] else [envNoIssues.blockerLabel]) ∧
    ([] : List GoStr) =
      (if envNoIssues.readyForTest = true then [] else [gs "READY-FOR-TEST"]) :=
  labelSets_passed_to_list envNoIssues projPath (gs "opened") 100
    [gs "R", gs "READY-FOR-TEST", gs "B"] [] (by decide)

/-- C2: with the ready-for-test flag set and an empty release label, the
run ends with the fatal validation message and an empty trace — no token
read, no client construction, no list call, no file. -/
theorem validation_fails_before_remote (env : Env)
    (h1 : env.releaseLabel = []) (h2 : env.readyForTest = true) :
    runMain env =
      ⟨[], RunOutcome.fatal (gs "Release label is required when filtering by READY-FOR-TEST"),
       none⟩ := by
  unfold runMain
  rw [if_pos ⟨h1, h2⟩]

/-- Witness for C2 at a concrete environment. -/
theorem validation_fails_before_remote_witness :
    runMain envValidationFail =
      ⟨[], RunOutcome.fatal (gs "Release label is required when filtering by READY-FOR-TEST"),
       none⟩ :=
  validation_fails_before_remote envValidationFail rfl rfl

/-- Counterexample to C3 as stated: the parse of
`https://host/a/b/c/d/e?query` is `a/b/c/d`, but applying the parse to
that output fails (its path splits into only 4 segments), so the parse is
not idempotent on its own output. -/
theorem linkParse_not_idempotent_cex :
    extractProjectPath (gs "https://host/a/b/c/d/e?query") = Except.ok (gs "a/b/c/d") ∧
    extractProjectPath (gs "a/b/c/d") =
      Except.error (gs "invalid GitLab issues link: a/b/c/d") :=
  ⟨by decide, by decide⟩

/-- C3 (amended): the parse is deterministic (equal inputs give equal
outputs) and maps `https://host/a/b/c/d/e?query` to `a/b/c/d`, but it is
not idempotent: applied to its own output `a/b/c/d` it returns an error,
not that output. -/
theorem linkParse_deterministic_amended :
    extractProjectPath (gs "https://host/a/b/c/d/e?query") = Except.ok (gs "a/b/c/d") ∧
    (∀ x y : GoStr, x = y → extractProjectPath x = extractProjectPath y) ∧
    extractProjectPath (gs "a/b/c/d") =
      Except.error (gs "invalid GitLab issues link: a/b/c/d") :=
  ⟨by decide, fun x y hxy => by rw [hxy], by decide⟩

/-- Witness for C3 (amended) at a concrete input. -/
theorem linkParse_deterministic_amended_witness :
    extractProjectPath (gs "https://host/a/b/c/d/e?query") =
      extractProjectPath (gs "https://host/a/b/c/d/e?query") :=
  linkParse_deterministic_amended.2.1 (gs "https://host/a/b/c/d/e?query")
    (gs "https://host/a/b/c/d/e?query") rfl

/-- Counterexample to C4 as stated: the path of `https://host/a//b/c` has
only 3 non-empty segments after the leading slash, yet `extractProjectPath`
succeeds (returning `a//b/c`), because the code counts the raw
`strings.Split` components — empty segments included. -/
theorem linkParse_nonempty_segment_count_cex :
    ((splitOnChar '/' (urlPath (gs "https://host/a//b/c"))).filter
        (fun seg => seg ≠ [])).length = 3 ∧
    extractProjectPath (gs "https://host/a//b/c") = Except.ok (gs "a//b/c") :=
  ⟨by decide, by decide⟩

/-- C4 (amended): `extractProjectPath` fails — with the
`invalid GitLab issues link` error and no project path — exactly when the
URL's path splits on `/` into fewer than 5 components, counting empty
components (URL parse failure is not modelled; see `urlPath`). -/
theorem linkParse_error_iff_short_split (link : GoStr) :
    extractProjectPath link = Except.error (gs "invalid GitLab issues link: " ++ link) ↔
      (splitOnChar '/' (urlPath link)).length < 5 := by
  unfold extractProjectPath
  by_cases h5 : (splitOnChar '/' (urlPath link)).length < 5
  · simp [h5]
  · simp [h5]

/-- C5: token loading trims surrounding whitespace and then strips one
literal `token:` prefix: ` token:abc123` followed by a newline yields
`abc123`; when the trimmed contents carry the prefix exactly its length is
dropped; without the prefix the trimmed contents are returned unchanged. -/
theorem token_loading_trims_and_strips :
    tokenFromFileContents (gs " token:abc123\n") = gs "abc123" ∧
    (∀ s : GoStr, listStartsWith (gs "token:") (goTrimSpace s) = true →
      tokenFromFileContents s = (goTrimSpace s).drop (gs "token:").length) ∧
    (∀ s : GoStr, listStartsWith (gs "token:") (goTrimSpace s) = false →
      tokenFromFileContents s = goTrimSpace s) := by
  refine ⟨by decide, fun s hs => ?_, fun s hs => ?_⟩
  · unfold tokenFromFileContents goTrimPfx
    rw [hs]
    simp
  · unfold tokenFromFileContents goTrimPfx
    rw [hs]
    simp

/-- Witness for C5 at concrete inputs with and without the prefix. -/
theorem token_loading_trims_and_strips_witness :
    tokenFromFileContents (gs "token:x") = (goTrimSpace (gs "token:x")).drop (gs "token:").length ∧
    tokenFromFileContents (gs "abc") = goTrimSpace (gs "abc") :=
  ⟨token_loading_trims_and_strips.2.1 (gs "token:x") (by decide),
   token_loading_trims_and_strips.2.2 (gs "abc") (by decide)⟩

/-- C6: a run that reaches report generation writes the header row
`Issue,Summary,Assignee,Author,Date of Creation` followed by exactly one
data row per issue in the order the service returned them, each row built
by `rowSpec` — markdown-style link `[#<iid>](<webURL>)`, title, assignee
name or the sentinel `Unassigned`, author username, and the creation date
formatted `YYYY-MM-DD HH:MM:SS` — and all of it is flushed to the file. -/
theorem report_header_and_rows (env : Env) (issues : List IssueSummary) (tok : GoStr)
    (hv : ¬(env.releaseLabel = [] ∧ env.readyForTest = true))
    (hr : env.readFile (resolveHome env.homeDir tokenFilePathRaw) = some tok)
    (hc : env.clientOk = true)
    (hl : env.listResult = some issues)
    (ho : env.createOk = true)
    (hi : ∀ s ∈ issues, (env.getIssue s.iid).isSome = true) :
    (runMain env).outcome = RunOutcome.normal ∧
    (runMain env).csv =
      some ⟨csvName env.now, headerRow :: issues.map (rowSpec env), [], true⟩ := by
  rw [runMain_success env issues tok hv hr hc hl ho hi]
  exact ⟨rfl, rfl⟩

/-- Witness for C6: two returned issues, the first with an assignee and
the second without, produce the header plus two rows in order. -/
theorem report_header_and_rows_witness :
    (runMain envTwoIssues).outcome = RunOutcome.normal ∧
    (runMain envTwoIssues).csv =
      some ⟨csvName envTwoIssues.now,
            headerRow ::
              [⟨7, some (gs "Alice")⟩, (⟨9, none⟩ : IssueSummary)].map (rowSpec envTwoIssues),
            [], true⟩ :=
  report_header_and_rows envTwoIssues [⟨7, some (gs "Alice")⟩, ⟨9, none⟩] (gs "token:abc")
    (by decide) rfl rfl rfl rfl (by decide)

/-- Counterexample to C7 as stated: when a detail fetch fails after the
file is opened and the header buffered, `log.Fatalf` exits via `os.Exit`
and the deferred flush and close are skipped — the header row stays
unflushed, nothing reaches the file, and the file is not closed. -/
theorem fatal_exit_skips_flush_cex :
    (runMain envDetailFail).outcome = RunOutcome.fatal (gs "Failed to get detailed issue") ∧
    (runMain envDetailFail).csv =
      some ⟨csvName envDetailFail.now, [], [headerRow], false⟩ :=
  ⟨by decide, by decide⟩

/-- C7 (amended): on the normal exit path — the only path on which the
deferred `writer.Flush()` and `outputFile.Close()` run — the buffered rows
are all flushed and the file is closed before the process terminates;
fatal exits skip both. -/
theorem normal_exit_flushes_and_closes (env : Env) (fs : CsvFile)
    (h1 : (runMain env).outcome = RunOutcome.normal)
    (h2 : (runMain env).csv = some fs) :
    fs.unflushed = [] ∧ fs.closed = true := by
  by_cases hv : env.releaseLabel = [] ∧ env.readyForTest = true
  · simp only [runMain, if_pos hv] at h1
    exact RunOutcome.noConfusion h1
  · simp only [runMain, if_neg hv, extract_link_eq] at h1 h2
    cases hread : env.readFile (resolveHome env.homeDir tokenFilePathRaw) with
    | none =>
      simp only [hread] at h1
      exact RunOutcome.noConfusion h1
    | some contents =>
      simp only [hread] at h1 h2
      by_cases hc : env.clientOk = false
      · rw [if_pos hc] at h1
        exact RunOutcome.noConfusion h1
      · rw [if_neg hc] at h1 h2
        cases hlist : env.listResult with
        | none =>
          simp only [hlist] at h1
          exact RunOutcome.noConfusion h1
        | some issues =>
          simp only [hlist] at h1 h2
          by_cases hcr : env.createOk = false
          · rw [if_pos hcr] at h1
            exact RunOutcome.noConfusion h1
          · rw [if_neg hcr] at h1 h2
            exact writeLoop_flush_normal env projPath (csvName env.now) issues _ _ fs h1 h2

/-- Witness for C7 (amended) at a normally terminating run. -/
theorem normal_exit_flushes_and_closes_witness :
    ({ name := csvName envNoIssues.now, flushed := [headerRow], unflushed := [],
       closed := true } : CsvFile).unflushed = [] ∧
    ({ name := csvName envNoIssues.now, flushed := [headerRow], unflushed := [],
       closed := true } : CsvFile).closed = true :=
  normal_exit_flushes_and_closes envNoIssues
    ⟨csvName envNoIssues.now, [headerRow], [], true⟩ (by decide) (by decide)

/-- C8: a home-directory resolution failure is non-fatal — `resolveHome`
returns the path unchanged and the run continues, consuming the unexpanded
`~/.gitlab` path (whose read failure is then the fatal error); in every
other case the leading `~` shorthand is replaced by the home directory. -/
theorem resolveHome_nonfatal_fallback :
    (∀ p : GoStr, resolveHome none p = p) ∧
    (∀ h rest : GoStr, resolveHome (some h) ('~' :: rest) = h ++ rest) ∧
    (∀ env : Env, env.homeDir = none →
      ¬(env.releaseLabel = [] ∧ env.readyForTest = true) →
      env.readFile tokenFilePathRaw = none →
      runMain env =
        ⟨[Event.readTokenFile tokenFilePathRaw],
         RunOutcome.fatal (gs "Failed to read GitLab token from file"), none⟩) := by
  refine ⟨fun p => rfl, fun h rest => ?_, fun env hhome hv hread => ?_⟩
  · show replaceFirst (gs "~") h ('~' :: rest) = h ++ rest
    rw [show (gs "~") = ['~'] from rfl]
    simp [replaceFirst, listStartsWith]
  · unfold runMain
    rw [if_neg hv]
    simp only [hhome, resolveHome, hread]

/-- Witness for C8: with no home directory and an unreadable token file,
the run consumes the unexpanded path and fails on the file read. -/
theorem resolveHome_nonfatal_fallback_witness :
    runMain envHomeFail =
      ⟨[Event.readTokenFile tokenFilePathRaw],
       RunOutcome.fatal (gs "Failed to read GitLab token from file"), none⟩ :=
  resolveHome_nonfatal_fallback.2.2 envHomeFail rfl (by decide) rfl

/-- C9: the Assignee column comes from the list record (`Unassigned` when
that record has no assignee, even when the detail record carries one —
`hda` below) and the issue id in the link comes from the list record,
while the link URL, Summary, Author, and creation date come from the
detail record. -/
theorem row_column_sources (env : Env) (s : IssueSummary) (d : IssueDetail) (nm tok : GoStr)
    (hv : ¬(env.releaseLabel = [] ∧ env.readyForTest = true))
    (hr : env.readFile (resolveHome env.homeDir tokenFilePathRaw) = some tok)
    (hc : env.clientOk = true)
    (hl : env.listResult = some [s])
    (ho : env.createOk = true)
    (hd : env.getIssue s.iid = some d)
    (ha : s.assignee = none)
    (hda : d.assignee = some nm) :
    (runMain env).outcome = RunOutcome.normal ∧
    (runMain env).csv =
      some ⟨csvName env.now,
            [headerRow,
             [issueLinkStr s.iid d.webURL, d.title, gs "Unassigned",
              d.authorUsername, goFormatDateTime d.createdAt]],
            [], true⟩ := by
  rw [runMain_success env [s] tok hv hr hc hl ho
    (by intro x hx; rw [List.mem_singleton.mp hx, hd]; rfl)]
  refine ⟨rfl, ?_⟩
  simp [rowSpec, hd, ha]

/-- Witness for C9: a listed issue with no assignee whose detail record is
assigned to Eve and carries a different iid is still reported as
`Unassigned`, linked under the list record's iid 9. -/
theorem row_column_sources_witness :
    (runMain envOneIssue).outcome = RunOutcome.normal ∧
    (runMain envOneIssue).csv =
      some ⟨csvName envOneIssue.now,
            [headerRow,
             [issueLinkStr (9 : Int) detailEve.webURL, detailEve.title, gs "Unassigned",
              detailEve.authorUsername, goFormatDateTime detailEve.createdAt]],
            [], true⟩ :=
  row_column_sources envOneIssue ⟨9, none⟩ detailEve (gs "Eve") (gs "token:abc")
    (by decide) rfl rfl rfl rfl rfl rfl rfl

/-- C10: when the list call succeeds with zero issues, the run still
creates the timestamp-named file, writes (and flushes) the header row, and
exits normally, with no detail-fetch event anywhere in the trace: the file
consists of exactly the header row. -/
theorem empty_list_header_only (env : Env) (tok : GoStr)
    (hv : ¬(env.releaseLabel = [] ∧ env.readyForTest = true))
    (hr : env.readFile (resolveHome env.homeDir tokenFilePathRaw) = some tok)
    (hc : env.clientOk = true)
    (hl : env.listResult = some [])
    (ho : env.createOk = true) :
    runMain env =
      ⟨[Event.readTokenFile (resolveHome env.homeDir tokenFilePathRaw),
        Event.newClient (tokenFromFileContents tok),
        Event.listCall projPath (gs "opened") 100
          (buildLabels env.releaseLabel env.readyForTest env.blockerLabel).1
          (buildLabels env.releaseLabel env.readyForTest env.blockerLabel).2,
        Event.createFile (csvName env.now)],
       RunOutcome.normal,
       some ⟨csvName env.now, [headerRow], [], true⟩⟩ ∧
    ∀ (pp : GoStr) (i : Int), Event.getIssueCall pp i ∉ (runMain env).trace := by
  have hmain := runMain_success env [] tok hv hr hc hl ho (by intro x hx; cases hx)
  simp only [List.map_nil, List.append_nil] at hmain
  refine ⟨hmain, fun pp i hmem => ?_⟩
  rw [hmain] at hmem
  simp only [List.mem_cons, List.not_mem_nil, or_false] at hmem
  rcases hmem with h' | h' | h' | h'
  · exact Event.noConfusion h'
  · exact Event.noConfusion h'
  · exact Event.noConfusion h'
  · exact Event.noConfusion h'

/-- Witness for C10 at a concrete zero-issue run. -/
theorem empty_list_header_only_witness :
    runMain envNoIssues =
      ⟨[Event.readTokenFile (resolveHome envNoIssues.homeDir tokenFilePathRaw),
        Event.newClient (tokenFromFileContents (gs "token:abc")),
        Event.listCall projPath (gs "opened") 100
          (buildLabels envNoIssues.releaseLabel envNoIssues.readyForTest
            envNoIssues.blockerLabel).1
          (buildLabels envNoIssues.releaseLabel envNoIssues.readyForTest
            envNoIssues.blockerLabel).2,
        Event.createFile (csvName envNoIssues.now)],
       RunOutcome.normal,
       some ⟨csvName envNoIssues.now, [headerRow], [], true⟩⟩ ∧
    ∀ (pp : GoStr) (i : Int), Event.getIssueCall pp i ∉ (runMain envNoIssues).trace :=
  empty_list_header_only envNoIssues (gs "token:abc") (by decide) rfl rfl rfl rfl
